import Mathlib

/-!
Shallow embedding of the CelestialSynth DSP core
(`CelestialSynth_DSP.h` / `CelestialSynth_DSP.cpp`).

Doubles are modelled as rationals (`ℚ`); C `int` values as `ℤ` (or `ℕ`
where the source guarantees non-negativity).  Transcendental library
calls (`std::sin`, `std::tanh`, `std::pow` with non-integer exponent,
`rand`, and the external `FastSinOscillator`) are abstracted as
parameters collected in the `Ext` structure: every theorem below holds
for every interpretation of those functions.  `std::pow(2.0, k)` with a
non-negative integer exponent is exact and is modelled as `(2:ℚ)^k`.
-/

namespace Celestial

/-- Truncation toward zero, the semantics of a C `(int)` cast and the
    quotient used by `fmod`. -/
def qtrunc (q : ℚ) : ℤ :=
  if 0 ≤ q then ⌊q⌋ else ⌈q⌉

/-- `fmod` for non-negative arguments (C `fmod` truncates toward zero). -/
def qfmod (x y : ℚ) : ℚ :=
  x - y * (qtrunc (x / y) : ℚ)

/-- Pointwise update of a ring buffer modelled as a function. -/
def updAt (f : ℕ → ℚ) (i : ℕ) (x : ℚ) : ℕ → ℚ :=
  fun j => if j = i then x else f j

/-- External (transcendental / stateful-library / random) functions the
    C++ code calls; the model is parametric in them. -/
structure Ext where
  sin : ℚ → ℚ
  tanh : ℚ → ℚ
  pow2 : ℚ → ℚ            -- `std::pow(2.0, ·)` for non-integer exponents
  fastSin : ℚ → ℚ × ℚ     -- iPlug2 `FastSinOscillator::Process` (state → state × output)
  setFreqCPS : ℚ → ℚ → ℚ  -- `FastSinOscillator::SetFreqCPS` (freq → state → state)
  oscReset : ℚ → ℚ        -- `FastSinOscillator::Reset`
  rand : ℕ → ℚ            -- stream of `rand()` draws

/-- A concrete interpretation of the external functions, used to
    instantiate universally quantified theorems at concrete inputs. -/
def dummyExt : Ext :=
  { sin := fun _ => 0
    tanh := fun _ => 0
    pow2 := fun _ => 1
    fastSin := fun s => (s, 0)
    setFreqCPS := fun _ s => s
    oscReset := fun s => s
    rand := fun _ => 0 }

/-! ## PentatonicScaleSystem -/

/-- Number of built-in scales (`kNumScales`). -/
def kNumScales : ℕ := 9

/-- `mScaleRatios`: just-intonation ratios for all 9 scales
    (`CelestialSynth_DSP.h`, lines 41–68). -/
def mScaleRatios : Fin 9 → Fin 5 → ℚ
  | 0 => ![1, 9/8, 5/4, 3/2, 27/16]        -- Japanese Yo
  | 1 => ![1, 9/8, 81/64, 3/2, 27/16]      -- Chinese Gong
  | 2 => ![1, 9/8, 4/3, 3/2, 5/3]          -- Celtic
  | 3 => ![1, 9/8, 32/27, 3/2, 27/16]      -- Indonesian Slendro
  | 4 => ![1, 9/8, 4/3, 3/2, 5/3]          -- Scottish Highland
  | 5 => ![1, 6/5, 4/3, 3/2, 9/5]          -- Mongolian Throat
  | 6 => ![1, 9/8, 5/4, 3/2, 5/3]          -- Egyptian Sacred
  | 7 => ![1, 6/5, 4/3, 3/2, 9/5]          -- Native American
  | 8 => ![1, 9/8, 4/3, 3/2, 5/3]          -- Nordic Aurora

/-- `mChromaticToScale`: chromatic semitone → pentatonic degree
    (`CelestialSynth_DSP.h`, lines 72–85). -/
def mChromaticToScale : Fin 12 → ℕ :=
  ![0, 0, 1, 1, 2, 2, 2, 3, 3, 4, 4, 4]

/-- The scale degree `mChromaticToScale[midiNote % 12]`. -/
def chromaticDegree (midiNote : ℕ) : ℕ :=
  mChromaticToScale ⟨midiNote % 12, Nat.mod_lt _ (by norm_num)⟩

/-- `PentatonicScaleSystem::GetScaleNote`.  A MIDI note is 0–127, so
    `noteIndex` is non-negative and C integer division/modulo coincide
    with `ℕ` division/modulo; `std::pow(2.0, octave)` is exact. -/
def GetScaleNote (scale : Fin 9) (noteIndex : ℕ) (baseFreq : ℚ) : ℚ :=
  baseFreq * mScaleRatios scale ⟨noteIndex % 5, Nat.mod_lt _ (by norm_num)⟩
    * 2 ^ (noteIndex / 5)

/-- `PentatonicScaleSystem::MapMidiNoteToScaleIndex`:
    `(octave * 5) + scaleDegree` with `octave = midiNote / 12`. -/
def MapMidiNoteToScaleIndex (midiNote : ℕ) : ℕ :=
  midiNote / 12 * 5 + chromaticDegree midiNote

/-- `PentatonicScaleSystem::GetFrequencyForMidiNote`. -/
def GetFrequencyForMidiNote (scale : Fin 9) (midiNote : ℕ) (baseFreq : ℚ) : ℚ :=
  GetScaleNote scale (MapMidiNoteToScaleIndex midiNote) baseFreq

/-- The frequency formula exactly as the specification words it:
    `octave = noteNumber/12`, `degree = chromaticToScale[noteNumber mod 12]`,
    `scaleIndex = octave×5 + degree`,
    `ratio = scaleRatios[scale][scaleIndex mod 5]`,
    result `= baseFreq × ratio × 2^octave`. -/
def specFrequencyForNote (scale : Fin 9) (n : ℕ) (baseFreq : ℚ) : ℚ :=
  baseFreq
    * mScaleRatios scale ⟨(n / 12 * 5 + chromaticDegree n) % 5, Nat.mod_lt _ (by norm_num)⟩
    * 2 ^ (n / 12)

end Celestial

namespace Celestial

/-! ## ADSREnvelope (`CelestialSynth_DSP.h`, lines 99–192) -/

/-- Envelope stages (`ADSREnvelope::Stage`). -/
inductive EnvStage
  | kIdle
  | kAttack
  | kDecay
  | kSustain
  | kRelease
deriving DecidableEq

/-- `ADSREnvelope` state; field defaults mirror the C++ member initializers. -/
structure ADSREnvelope where
  stage : EnvStage := .kIdle
  sampleRate : ℚ := 44100
  attackSamples : ℚ := 441
  decaySamples : ℚ := 2205
  sustainLevel : ℚ := 7/10
  releaseSamples : ℚ := 8820
  envelopeValue : ℚ := 0
  releaseStart : ℚ := 0
  sampleCount : ℤ := 0

def ADSREnvelope.SetSampleRate (sr : ℚ) (e : ADSREnvelope) : ADSREnvelope :=
  { e with sampleRate := sr }

def ADSREnvelope.SetAttack (ms : ℚ) (e : ADSREnvelope) : ADSREnvelope :=
  { e with attackSamples := ms / 1000 * e.sampleRate }

def ADSREnvelope.SetDecay (ms : ℚ) (e : ADSREnvelope) : ADSREnvelope :=
  { e with decaySamples := ms / 1000 * e.sampleRate }

def ADSREnvelope.SetSustain (level : ℚ) (e : ADSREnvelope) : ADSREnvelope :=
  { e with sustainLevel := level }

def ADSREnvelope.SetRelease (ms : ℚ) (e : ADSREnvelope) : ADSREnvelope :=
  { e with releaseSamples := ms / 1000 * e.sampleRate }

/-- `ADSREnvelope::Trigger`. -/
def ADSREnvelope.Trigger (e : ADSREnvelope) : ADSREnvelope :=
  { e with stage := .kAttack, envelopeValue := 0, sampleCount := 0 }

/-- `ADSREnvelope::Release`. -/
def ADSREnvelope.Release (e : ADSREnvelope) : ADSREnvelope :=
  { e with stage := .kRelease, releaseStart := e.envelopeValue, sampleCount := 0 }

/-- `ADSREnvelope::Process`: returns the new state and the returned
    envelope value.  `int` vs `double` comparisons promote the `int`. -/
def ADSREnvelope.Process (e : ADSREnvelope) : ADSREnvelope × ℚ :=
  match e.stage with
  | .kAttack =>
    let v : ℚ := if 0 < e.attackSamples then (e.sampleCount : ℚ) / e.attackSamples else 1
    if ((e.sampleCount + 1 : ℤ) : ℚ) ≥ e.attackSamples then
      ({ e with stage := .kDecay, sampleCount := 0, envelopeValue := 1 }, 1)
    else
      ({ e with envelopeValue := v, sampleCount := e.sampleCount + 1 }, v)
  | .kDecay =>
    let v : ℚ :=
      if 0 < e.decaySamples then
        1 - (1 - e.sustainLevel) * ((e.sampleCount : ℚ) / e.decaySamples)
      else e.sustainLevel
    if ((e.sampleCount + 1 : ℤ) : ℚ) ≥ e.decaySamples then
      ({ e with stage := .kSustain, sampleCount := e.sampleCount + 1,
                envelopeValue := e.sustainLevel }, e.sustainLevel)
    else
      ({ e with envelopeValue := v, sampleCount := e.sampleCount + 1 }, v)
  | .kSustain => ({ e with envelopeValue := e.sustainLevel }, e.sustainLevel)
  | .kRelease =>
    let v : ℚ :=
      if 0 < e.releaseSamples then
        e.releaseStart * (1 - (e.sampleCount : ℚ) / e.releaseSamples)
      else 0
    if v ≤ 1/1000 then
      ({ e with envelopeValue := 0, stage := .kIdle, sampleCount := e.sampleCount + 1 }, 0)
    else
      ({ e with envelopeValue := v, sampleCount := e.sampleCount + 1 }, v)
  | .kIdle => ({ e with envelopeValue := 0 }, 0)

/-- `ADSREnvelope::IsActive`. -/
def ADSREnvelope.IsActive (e : ADSREnvelope) : Bool :=
  match e.stage with
  | .kIdle => false
  | _ => true

/-! ## SimpleLowpassFilter (`CelestialSynth_DSP.h`, lines 195–261) -/

/-- The literal `3.14159265359` the C++ source uses for π. -/
def qPi : ℚ := 3.14159265359

structure SimpleLowpassFilter where
  sampleRate : ℚ := 44100
  cutoff : ℚ := 20000
  resonance : ℚ := 0
  f : ℚ := 1
  q : ℚ := 1
  lowpass : ℚ := 0
  bandpass : ℚ := 0
  highpass : ℚ := 0

/-- `SimpleLowpassFilter::UpdateCoefficients`. -/
def SimpleLowpassFilter.UpdateCoefficients (E : Ext) (fl : SimpleLowpassFilter) :
    SimpleLowpassFilter :=
  let omega := qPi * fl.cutoff / fl.sampleRate
  { fl with f := 2 * E.sin omega, q := 1 / (1/2 + fl.resonance * (19/2)) }

def SimpleLowpassFilter.SetSampleRate (E : Ext) (sr : ℚ) (fl : SimpleLowpassFilter) :
    SimpleLowpassFilter :=
  SimpleLowpassFilter.UpdateCoefficients E { fl with sampleRate := sr }

def SimpleLowpassFilter.SetCutoff (E : Ext) (freq : ℚ) (fl : SimpleLowpassFilter) :
    SimpleLowpassFilter :=
  SimpleLowpassFilter.UpdateCoefficients E
    { fl with cutoff := max 20 (min freq (fl.sampleRate * (49/100))) }

def SimpleLowpassFilter.SetResonance (E : Ext) (res : ℚ) (fl : SimpleLowpassFilter) :
    SimpleLowpassFilter :=
  SimpleLowpassFilter.UpdateCoefficients E { fl with resonance := res }

/-- `SimpleLowpassFilter::Process` (Chamberlin state-variable recurrence). -/
def SimpleLowpassFilter.Process (fl : SimpleLowpassFilter) (input : ℚ) :
    SimpleLowpassFilter × ℚ :=
  let low := fl.lowpass + fl.f * fl.bandpass
  let high := input - low - fl.q * fl.bandpass
  let band := fl.bandpass + fl.f * high
  ({ fl with lowpass := low, highpass := high, bandpass := band }, low)

def SimpleLowpassFilter.Reset (fl : SimpleLowpassFilter) : SimpleLowpassFilter :=
  { fl with lowpass := 0, bandpass := 0, highpass := 0 }

/-! ## CelestialVoice (`CelestialSynth_DSP.h` lines 475–542,
    `CelestialSynth_DSP.cpp` lines 16–127) -/

inductive WaveformType
  | kSine
  | kSaw
  | kSquare
  | kTriangle
deriving DecidableEq

/-- `CelestialVoice::PolyBLEP` (`CelestialSynth_DSP.h`, lines 507–526). -/
def PolyBLEP (t dt : ℚ) : ℚ :=
  if t < dt then
    let u := t / dt
    u + u - u * u - 1
  else if t > 1 - dt then
    let u := (t - 1) / dt
    u * u + u + u + 1
  else 0

structure CelestialVoice where
  oscState : ℚ := 0      -- opaque state of the external `FastSinOscillator`
  filter : SimpleLowpassFilter := {}
  envelope : ADSREnvelope := {}
  waveform : WaveformType := .kSine
  frequency : ℚ := 440
  phase : ℚ := 0
  phaseIncrement : ℚ := 0
  sampleRate : ℚ := 44100
  triangleState : ℚ := 0
  voiceGain : ℚ := 0
  note : ℤ := -1
  velocity : ℤ := 0

/-- `CelestialVoice::GenerateWaveform`: computes the output sample and
    advances the phase (the `kSine` case calls `std::sin`). -/
def CelestialVoice.GenerateWaveform (E : Ext) (v : CelestialVoice) :
    CelestialVoice × ℚ :=
  let vout : CelestialVoice × ℚ :=
    match v.waveform with
    | .kSine => (v, E.sin (v.phase * 2 * qPi))
    | .kSaw => (v, 2 * (v.phase - 1/2) - PolyBLEP v.phase v.phaseIncrement)
    | .kSquare =>
      (v, (if v.phase < 1/2 then (1 : ℚ) else -1)
            + PolyBLEP v.phase v.phaseIncrement
            - PolyBLEP (qfmod (v.phase + 1/2) 1) v.phaseIncrement)
    | .kTriangle =>
      let square := (if v.phase < 1/2 then (1 : ℚ) else -1)
            + PolyBLEP v.phase v.phaseIncrement
            - PolyBLEP (qfmod (v.phase + 1/2) 1) v.phaseIncrement
      let out := v.phaseIncrement * square + (1 - v.phaseIncrement) * v.triangleState
      ({ v with triangleState := out }, out * 4)
  let v1 := vout.1
  let newPhase := v1.phase + v1.phaseIncrement
  ({ v1 with phase := if newPhase ≥ 1 then newPhase - 1 else newPhase }, vout.2)

/-- `CelestialVoice::SetFrequency` (also updates the external sine
    oscillator via `SetFreqCPS`). -/
def CelestialVoice.SetFrequency (E : Ext) (freq : ℚ) (v : CelestialVoice) :
    CelestialVoice :=
  { v with frequency := freq, phaseIncrement := freq / v.sampleRate,
           oscState := E.setFreqCPS freq v.oscState }

def CelestialVoice.SetWaveform (wf : WaveformType) (v : CelestialVoice) : CelestialVoice :=
  { v with waveform := wf }

def CelestialVoice.SetFilterCutoff (E : Ext) (c : ℚ) (v : CelestialVoice) : CelestialVoice :=
  { v with filter := v.filter.SetCutoff E c }

def CelestialVoice.SetFilterResonance (E : Ext) (r : ℚ) (v : CelestialVoice) : CelestialVoice :=
  { v with filter := v.filter.SetResonance E r }

def CelestialVoice.SetAttack (ms : ℚ) (v : CelestialVoice) : CelestialVoice :=
  { v with envelope := v.envelope.SetAttack ms }

def CelestialVoice.SetDecay (ms : ℚ) (v : CelestialVoice) : CelestialVoice :=
  { v with envelope := v.envelope.SetDecay ms }

def CelestialVoice.SetSustain (level : ℚ) (v : CelestialVoice) : CelestialVoice :=
  { v with envelope := v.envelope.SetSustain level }

def CelestialVoice.SetReleaseTime (ms : ℚ) (v : CelestialVoice) : CelestialVoice :=
  { v with envelope := v.envelope.SetRelease ms }

def CelestialVoice.SetNote (note velocity : ℤ) (v : CelestialVoice) : CelestialVoice :=
  { v with note := note, velocity := velocity }

/-- `CelestialVoice::GetBusy`. -/
def CelestialVoice.GetBusy (v : CelestialVoice) : Bool :=
  v.envelope.IsActive

/-- `CelestialVoice::IsPlayingNote`. -/
def CelestialVoice.IsPlayingNote (note : ℤ) (v : CelestialVoice) : Bool :=
  v.note == note && v.GetBusy

/-- `CelestialVoice::Trigger`. -/
def CelestialVoice.Trigger (E : Ext) (level : ℚ) (isRetrigger : Bool)
    (v : CelestialVoice) : CelestialVoice :=
  let v1 := { v with voiceGain := level, envelope := v.envelope.Trigger }
  if isRetrigger then v1
  else { v1 with phase := 0, oscState := E.oscReset v1.oscState,
                 filter := v1.filter.Reset }

/-- `CelestialVoice::Release`. -/
def CelestialVoice.Release (v : CelestialVoice) : CelestialVoice :=
  { v with envelope := v.envelope.Release }

/-- One iteration of the sample loop of
    `CelestialVoice::ProcessSamplesAccumulating`: oscillator (external
    `FastSinOscillator` for sine, `GenerateWaveform` otherwise), filter,
    envelope; returns the voice sample `filtered × envelope × gain`
    before the `× 0.3` accumulation scaling. -/
def CelestialVoice.sampleStep (E : Ext) (v : CelestialVoice) : CelestialVoice × ℚ :=
  let vosc : CelestialVoice × ℚ :=
    if v.waveform = .kSine then
      let so := E.fastSin v.oscState
      ({ v with oscState := so.1 }, so.2)
    else
      v.GenerateWaveform E
  let ff := vosc.1.filter.Process vosc.2
  let ee := vosc.1.envelope.Process
  ({ vosc.1 with filter := ff.1, envelope := ee.1 }, ff.2 * ee.2 * v.voiceGain)

/-- The `nSamples` iterations of `ProcessSamplesAccumulating`'s loop:
    new voice state and the list of generated voice samples. -/
def CelestialVoice.renderSamples (E : Ext) : ℕ → CelestialVoice → CelestialVoice × List ℚ
  | 0, v => (v, [])
  | n + 1, v =>
    let s1 := v.sampleStep E
    let s2 := CelestialVoice.renderSamples E n s1.1
    (s2.1, s1.2 :: s2.2)

/-! ## LFO (`CelestialSynth_DSP.h`, lines 361–472) -/

inductive LFOWaveform
  | kSine
  | kTriangle
  | kSawUp
  | kSawDown
  | kSquare
  | kRandom
deriving DecidableEq

structure LFO where
  sampleRate : ℚ := 44100
  rateHz : ℚ := 1
  phase : ℚ := 0
  phaseIncrement : ℚ := 0
  previousPhase : ℚ := 0
  randomValue : ℚ := 0
  waveform : LFOWaveform := .kSine
  bipolar : Bool := true

def LFO.SetRate (hz : ℚ) (l : LFO) : LFO :=
  let r := max (1/100) (min hz 20)
  { l with rateHz := r, phaseIncrement := r / l.sampleRate }

/-- `LFO::Process`.  `randVal` stands for the draw
    `((double)rand() / RAND_MAX) * 2.0 - 1.0`, consumed only when the
    phase has wrapped in the sample-and-hold mode. -/
def LFO.Process (E : Ext) (randVal : ℚ) (l : LFO) : LFO × ℚ :=
  let lout : LFO × ℚ :=
    match l.waveform with
    | .kSine => (l, E.sin (l.phase * 2 * qPi))
    | .kTriangle => (l, if l.phase < 1/2 then l.phase * 4 - 1 else 3 - l.phase * 4)
    | .kSawUp => (l, l.phase * 2 - 1)
    | .kSawDown => (l, 1 - l.phase * 2)
    | .kSquare => (l, if l.phase < 1/2 then 1 else -1)
    | .kRandom =>
      if l.phase < l.previousPhase then ({ l with randomValue := randVal }, randVal)
      else (l, l.randomValue)
  let l1 := { lout.1 with previousPhase := lout.1.phase }
  let np := l1.phase + l1.phaseIncrement
  let l2 := { l1 with phase := if np ≥ 1 then np - 1 else np }
  (l2, if l2.bipolar then lout.2 else (lout.2 + 1) * (1/2))

/-! ## SimpleReverb (`CelestialSynth_DSP.h`, lines 263–358) -/

structure SimpleReverb where
  sampleRate : ℚ := 44100
  combBuffer1 : ℕ → ℚ := fun _ => 0
  combBuffer2 : ℕ → ℚ := fun _ => 0
  combBuffer3 : ℕ → ℚ := fun _ => 0
  combBuffer4 : ℕ → ℚ := fun _ => 0
  combPos1 : ℕ := 0
  combPos2 : ℕ := 0
  combPos3 : ℕ := 0
  combPos4 : ℕ := 0
  allpass1 : ℕ → ℚ := fun _ => 0
  allpass2 : ℕ → ℚ := fun _ => 0
  allpassPos1 : ℕ := 0
  allpassPos2 : ℕ := 0

/-- `SimpleReverb::Process`: 4 parallel feedback combs (gain 0.84,
    delays 1557/1617/1491/1422), averaged, then 2 serial allpasses
    (gain 0.5, delays 225/341). -/
def SimpleReverb.Process (r : SimpleReverb) (input : ℚ) : SimpleReverb × ℚ :=
  let combGain : ℚ := 84/100
  let comb1 := r.combBuffer1 r.combPos1
  let b1 := updAt r.combBuffer1 r.combPos1 (input + comb1 * combGain)
  let p1 := (r.combPos1 + 1) % 1557
  let comb2 := r.combBuffer2 r.combPos2
  let b2 := updAt r.combBuffer2 r.combPos2 (input + comb2 * combGain)
  let p2 := (r.combPos2 + 1) % 1617
  let comb3 := r.combBuffer3 r.combPos3
  let b3 := updAt r.combBuffer3 r.combPos3 (input + comb3 * combGain)
  let p3 := (r.combPos3 + 1) % 1491
  let comb4 := r.combBuffer4 r.combPos4
  let b4 := updAt r.combBuffer4 r.combPos4 (input + comb4 * combGain)
  let p4 := (r.combPos4 + 1) % 1422
  let combSum := (comb1 + comb2 + comb3 + comb4) * (1/4)
  let allpassGain : ℚ := 1/2
  let ap1Out := r.allpass1 r.allpassPos1
  let ap1In := combSum + ap1Out * allpassGain
  let a1 := updAt r.allpass1 r.allpassPos1 ap1In
  let ap1Out2 := ap1Out - ap1In * allpassGain
  let q1 := (r.allpassPos1 + 1) % 225
  let ap2Out := r.allpass2 r.allpassPos2
  let ap2In := ap1Out2 + ap2Out * allpassGain
  let a2 := updAt r.allpass2 r.allpassPos2 ap2In
  let ap2Out2 := ap2Out - ap2In * allpassGain
  let q2 := (r.allpassPos2 + 1) % 341
  ({ r with combBuffer1 := b1, combBuffer2 := b2, combBuffer3 := b3, combBuffer4 := b4,
            combPos1 := p1, combPos2 := p2, combPos3 := p3, combPos4 := p4,
            allpass1 := a1, allpass2 := a2, allpassPos1 := q1, allpassPos2 := q2 },
   ap2Out2)

/-! ## Modulation matrix (`CelestialSynth_DSP.cpp`, lines 141–178) -/

inductive ModSource
  | kNone
  | kLFO1
  | kLFO2
  | kAmpEnv
  | kVelocity
  | kModWheel
deriving DecidableEq

inductive ModDestination
  | kNone
  | kPitch
  | kFilterCutoff
  | kFilterRes
  | kAmplitude
  | kPan
deriving DecidableEq

structure ModulationSlot where
  source : ModSource := .kNone
  dest : ModDestination := .kNone
  depth : ℚ := 0
  enabled : Bool := false

/-- The five per-destination accumulators of `ProcessBlock`
    (`modPitch` … `modPan`, all initialised to `0.0`). -/
structure ModAccums where
  modPitch : ℚ := 0
  modFilterCutoff : ℚ := 0
  modFilterRes : ℚ := 0
  modAmplitude : ℚ := 0
  modPan : ℚ := 0

/-- `mModSourceValues` as set at the top of `ProcessBlock`:
    `kNone ↦ 0`, the two LFO outputs, `kAmpEnv ↦ 0.5`,
    `kVelocity ↦ 0.5`, `kModWheel ↦ mModWheelValue`. -/
def modSourceValue (lv1 lv2 modWheel : ℚ) : ModSource → ℚ
  | .kNone => 0
  | .kLFO1 => lv1
  | .kLFO2 => lv2
  | .kAmpEnv => 1/2
  | .kVelocity => 1/2
  | .kModWheel => modWheel

/-- One iteration of the modulation-slot loop in `ProcessBlock`:
    skip disabled / none-source / none-destination slots, skip the
    per-voice sources (`kVelocity`, `kAmpEnv`), else add
    `sourceValue × depth` to the slot's destination accumulator. -/
def applySlot (srcVal : ModSource → ℚ) (acc : ModAccums) (slot : ModulationSlot) :
    ModAccums :=
  if !slot.enabled ∨ slot.source = .kNone ∨ slot.dest = .kNone then acc
  else if slot.source = .kVelocity ∨ slot.source = .kAmpEnv then acc
  else
    let modValue := srcVal slot.source * slot.depth
    match slot.dest with
    | .kPitch => { acc with modPitch := acc.modPitch + modValue }
    | .kFilterCutoff => { acc with modFilterCutoff := acc.modFilterCutoff + modValue }
    | .kFilterRes => { acc with modFilterRes := acc.modFilterRes + modValue }
    | .kAmplitude => { acc with modAmplitude := acc.modAmplitude + modValue }
    | .kPan => { acc with modPan := acc.modPan + modValue }
    | .kNone => acc

/-- The whole slot loop (slots are visited in index order). -/
def computeModAccums (srcVal : ModSource → ℚ) (slots : List ModulationSlot) : ModAccums :=
  slots.foldl (applySlot srcVal) {}

/-- A slot that the block-rate pass actually sums, in the words of the
    specification: enabled, source and destination different from none,
    and a block-rate source (LFO1, LFO2 or mod-wheel). -/
def isBlockRateSlot (slot : ModulationSlot) : Bool :=
  slot.enabled
    && !(slot.source == .kNone) && !(slot.dest == .kNone)
    && (slot.source == .kLFO1 || slot.source == .kLFO2 || slot.source == .kModWheel)

/-- The specification's accumulator: the sum of `sourceValue × depth`
    over exactly the block-rate slots routed to `dest`. -/
def specAccum (srcVal : ModSource → ℚ) (slots : List ModulationSlot)
    (dest : ModDestination) : ℚ :=
  ((slots.filter (fun s => isBlockRateSlot s && s.dest == dest)).map
    (fun s => srcVal s.source * s.depth)).sum

/-! ## CelestialSynthDSP state -/

def kMaxVoices : ℕ := 16
def kNumModSlots : ℕ := 8

/-- `kMaxDelayBufferSize = 88200` (2 s at 44.1 kHz), as `ℤ` because the
    C++ cursor arithmetic is on `int`. -/
def kMaxDelayBufferSize : ℤ := 88200

structure CelestialSynthDSP where
  voices : List CelestialVoice := []
  scaleCurrent : Fin 9 := 0          -- `PentatonicScaleSystem::mCurrentScale`
  sampleRate : ℚ := 44100
  brilliance : ℚ := 1/2
  motion : ℚ := 3/10
  space : ℚ := 2/5
  warmth : ℚ := 3/5
  purity : ℚ := 4/5
  waveform : WaveformType := .kSine
  filterCutoff : ℚ := 20000
  filterResonance : ℚ := 0
  attack : ℚ := 10
  decay : ℚ := 50
  sustain : ℚ := 7/10
  releaseMs : ℚ := 200               -- `mRelease`
  reverbMix : ℚ := 3/10
  delayTime : ℚ := 250
  delayFeedback : ℚ := 3/10
  delayMix : ℚ := 1/5
  delayBufferL : ℕ → ℚ := fun _ => 0
  delayBufferR : ℕ → ℚ := fun _ => 0
  delayWritePos : ℤ := 0
  reverbL : SimpleReverb := {}
  reverbR : SimpleReverb := {}
  lfo1 : LFO := {}
  lfo2 : LFO := {}
  modWheelValue : ℚ := 0
  modSlots : List ModulationSlot := []
  timbreShift : ℚ := 0
  voiceCount : ℤ := 8
  gain : ℚ := 1/2
  motionPhase : ℚ := 0

/-- Number of loop iterations of `for (v = 0; v < mVoiceCount && v < kMaxVoices; v++)`. -/
def activeVoiceBound (st : CelestialSynthDSP) : ℕ :=
  (min st.voiceCount (kMaxVoices : ℤ)).toNat

/-! ## ProcessMidiMsg (`CelestialSynth_DSP.cpp`, lines 298–372) -/

/-- The voice set-up and trigger performed on the claimed voice in the
    note-on branch of `ProcessMidiMsg` (lines 323–344). -/
def triggerVoiceForNote (E : Ext) (st : CelestialSynthDSP) (note velocity : ℤ)
    (v : CelestialVoice) : CelestialVoice :=
  let baseFreq : ℚ := 261.6256
  let freq := GetFrequencyForMidiNote st.scaleCurrent note.toNat baseFreq
  let freq := freq * E.pow2 (st.timbreShift * (1/10))
  let v := v.SetFrequency E freq
  let v := v.SetWaveform st.waveform
  let v := v.SetFilterCutoff E st.filterCutoff
  let v := v.SetFilterResonance E st.filterResonance
  let v := v.SetAttack st.attack
  let v := v.SetDecay st.decay
  let v := v.SetSustain st.sustain
  let v := v.SetReleaseTime st.releaseMs
  let v := v.SetNote note velocity
  let scaledVelocity := ((velocity : ℚ) / 127) * (1/2 + st.warmth * (1/2))
  v.Trigger E scaledVelocity false

/-- The note-on scan: visit at most `bound` voices in index order, claim
    the first non-busy one (the loop `break`s), leave the rest alone. -/
def claimFirstFree (f : CelestialVoice → CelestialVoice) :
    ℕ → List CelestialVoice → List CelestialVoice
  | _, [] => []
  | 0, vs => vs
  | bound + 1, v :: vs =>
    if v.GetBusy then v :: claimFirstFree f bound vs
    else f v :: vs

/-- The note-off / velocity-zero scan: release every voice among the
    first `bound` that is playing `note` (no `break`). -/
def releaseMatching (note : ℤ) : ℕ → List CelestialVoice → List CelestialVoice
  | _, [] => []
  | 0, vs => vs
  | bound + 1, v :: vs =>
    (if v.IsPlayingNote note then v.Release else v) ::
      releaseMatching note bound vs

/-- The `kNoteOn` branch of `ProcessMidiMsg` (velocity 0 is an implicit
    note-off per the MIDI convention). -/
def NoteOn (E : Ext) (st : CelestialSynthDSP) (note velocity : ℤ) : CelestialSynthDSP :=
  if velocity = 0 then
    { st with voices := releaseMatching note (activeVoiceBound st) st.voices }
  else
    { st with voices :=
        (claimFirstFree (triggerVoiceForNote E st note velocity)
          (activeVoiceBound st) st.voices) }

/-- The `kNoteOff` branch of `ProcessMidiMsg`. -/
def NoteOff (st : CelestialSynthDSP) (note : ℤ) : CelestialSynthDSP :=
  { st with voices := releaseMatching note (activeVoiceBound st) st.voices }

/-! ## ProcessBlock (`CelestialSynth_DSP.cpp`, lines 130–296) -/

/-- Cutoff modulation applied to every active voice: exponential
    (±4 octaves full-scale), clamped to [20, 20000] Hz; identity when the
    accumulator is zero. -/
def modulatedCutoff (E : Ext) (st : CelestialSynthDSP) (acc : ModAccums) : ℚ :=
  if acc.modFilterCutoff ≠ 0 then
    max 20 (min (st.filterCutoff * E.pow2 (acc.modFilterCutoff * 4)) 20000)
  else st.filterCutoff

/-- Resonance modulation: additive, clamped to [0, 1]. -/
def modulatedResonance (st : CelestialSynthDSP) (acc : ModAccums) : ℚ :=
  max 0 (min (st.filterResonance + acc.modFilterRes) 1)

/-- The voice loop of `ProcessBlock` (lines 184–212): visit at most
    `bound` voices in index order; a busy voice gets the modulated filter
    settings, is rendered for `nFrames` samples, and accumulates
    `sample × 0.3` into every output channel.  Channels do not interact
    and all start at `0.0`, so the accumulating loop is represented by
    the single per-frame mix row that every channel receives. -/
def processVoices (E : Ext) (st : CelestialSynthDSP) (acc : ModAccums) (nFrames : ℕ) :
    ℕ → List CelestialVoice → List CelestialVoice × List ℚ
  | _, [] => ([], List.replicate nFrames 0)
  | 0, vs => (vs, List.replicate nFrames 0)
  | bound + 1, v :: vs =>
    if v.GetBusy then
      let v1 := v.SetFilterCutoff E (modulatedCutoff E st acc)
      let v2 := v1.SetFilterResonance E (modulatedResonance st acc)
      let rend := v2.renderSamples E nFrames
      let rest := processVoices E st acc nFrames bound vs
      (rend.1 :: rest.1, List.zipWith (fun b x => b + x * (3/10)) rest.2 rend.2)
    else
      let rest := processVoices E st acc nFrames bound vs
      (v :: rest.1, rest.2)

/-- The delay length `ProcessBlock` computes (lines 265–266):
    `min((int)((delayTimeMs / 1000) * sampleRate), kMaxDelayBufferSize - 1)`. -/
def delaySamplesUsed (st : CelestialSynthDSP) : ℤ :=
  min (qtrunc (st.delayTime / 1000 * st.sampleRate)) (kMaxDelayBufferSize - 1)

/-- The delay read cursor (lines 268–269):
    `writePos - delaySamples`, wrapped up once if negative. -/
def delayReadPos (st : CelestialSynthDSP) (wp : ℤ) : ℤ :=
  let rp := wp - delaySamplesUsed st
  if rp < 0 then rp + kMaxDelayBufferSize else rp

/-- Mutable state threaded through the post-mix (character controls +
    gain + delay + reverb) double loop. -/
structure FxState where
  motionPhase : ℚ
  delayBufferL : ℕ → ℚ
  delayBufferR : ℕ → ℚ
  delayWritePos : ℤ
  reverbL : SimpleReverb
  reverbR : SimpleReverb

/-- BRILLIANCE (lines 221–229). -/
def brillianceStage (st : CelestialSynthDSP) (x : ℚ) : ℚ :=
  if st.brilliance > 1/2 then x * (1 + (st.brilliance - 1/2) * 2)
  else x * (st.brilliance * 2)

/-- MOTION (lines 231–233): phase accumulator advances by
    `0.01 × motion`, sample scaled by `1 + sin(phase) × motion × 0.1`. -/
def motionStage (E : Ext) (st : CelestialSynthDSP) (phase x : ℚ) : ℚ × ℚ :=
  let ph := phase + 1/100 * st.motion
  (ph, x * (1 + E.sin ph * st.motion * (1/10)))

/-- SPACE (lines 236–239): right channel only, with ≥ 2 channels. -/
def spaceStage (st : CelestialSynthDSP) (c nOutputs : ℕ) (x : ℚ) : ℚ :=
  if c = 1 ∧ 1 < nOutputs then x * (1 + st.space * (3/10)) else x

/-- WARMTH (lines 244–248). -/
def warmthStage (E : Ext) (st : CelestialSynthDSP) (x : ℚ) : ℚ :=
  if st.warmth > 1/10 then
    E.tanh (x * (1 + st.warmth * (1/2))) / (1 + st.warmth * (1/2) * (1/2))
  else x

/-- PURITY (lines 253–257). -/
def purityStage (E : Ext) (st : CelestialSynthDSP) (x : ℚ) : ℚ :=
  if st.purity < 9/10 then E.tanh (x * (1 + (1 - st.purity) * (1/5))) else x

/-- The delay effect (lines 263–279): active only when
    `delayMix > 0.01`; reads at `delayReadPos`, writes
    `sample + delayed × feedback` at the write cursor. -/
def delayStage (st : CelestialSynthDSP) (c : ℕ) (wp : ℤ) (bufL bufR : ℕ → ℚ)
    (x : ℚ) : (ℕ → ℚ) × (ℕ → ℚ) × ℚ :=
  if st.delayMix > 1/100 then
    let delayedSample := (if c = 0 then bufL else bufR) (delayReadPos st wp).toNat
    let s := x * (1 - st.delayMix) + delayedSample * st.delayMix
    let written := s + delayedSample * st.delayFeedback
    if c = 0 then (updAt bufL wp.toNat written, bufR, s)
    else (bufL, updAt bufR wp.toNat written, s)
  else (bufL, bufR, x)

/-- The reverb effect (lines 282–286): active only when
    `reverbMix > 0.01`; processes the per-channel `SimpleReverb`. -/
def reverbStage (st : CelestialSynthDSP) (c : ℕ) (rL rR : SimpleReverb) (x : ℚ) :
    SimpleReverb × SimpleReverb × ℚ :=
  if st.reverbMix > 1/100 then
    if c = 0 then
      let pr := rL.Process x
      (pr.1, rR, x * (1 - st.reverbMix) + pr.2 * st.reverbMix)
    else
      let pr := rR.Process x
      (rL, pr.1, x * (1 - st.reverbMix) + pr.2 * st.reverbMix)
  else (rL, rR, x)

/-- The body of the inner (per-sample) post-mix loop, for channel `c`. -/
def fxSample (E : Ext) (st : CelestialSynthDSP) (nOutputs c : ℕ) (fx : FxState)
    (x : ℚ) : FxState × ℚ :=
  let s1 := brillianceStage st x
  let ms := motionStage E st fx.motionPhase s1
  let s3 := spaceStage st c nOutputs ms.2
  let s4 := warmthStage E st s3
  let s5 := purityStage E st s4
  let s6 := s5 * st.gain
  let ds := delayStage st c fx.delayWritePos fx.delayBufferL fx.delayBufferR s6
  let rs := reverbStage st c fx.reverbL fx.reverbR ds.2.2
  ({ motionPhase := ms.1, delayBufferL := ds.1, delayBufferR := ds.2.1,
     delayWritePos := fx.delayWritePos, reverbL := rs.1, reverbR := rs.2.1 },
   rs.2.2)

/-- Stateful map: thread the accumulator through a list (the shape of
    the per-sample loops). -/
def mapAccuml {σ α β : Type} (f : σ → α → σ × β) : σ → List α → σ × List β
  | s, [] => (s, [])
  | s, a :: as =>
    let fb := f s a
    let rest := mapAccuml f fb.1 as
    (rest.1, fb.2 :: rest.2)

/-- One channel of the post-mix loop (lines 215–295): run the sample
    loop, then advance the delay write cursor once, wrapping at
    `kMaxDelayBufferSize`. -/
def fxChannel (E : Ext) (st : CelestialSynthDSP) (nOutputs c : ℕ) (fx : FxState)
    (row : List ℚ) : FxState × List ℚ :=
  let mr := mapAccuml (fxSample E st nOutputs c) fx row
  let wp := mr.1.delayWritePos + 1
  ({ mr.1 with delayWritePos := if wp ≥ kMaxDelayBufferSize then 0 else wp }, mr.2)

/-- The channel loop of the post-mix section, channels numbered from `c`. -/
def fxChannels (E : Ext) (st : CelestialSynthDSP) (nOutputs : ℕ) :
    ℕ → FxState → List (List ℚ) → FxState × List (List ℚ)
  | _, fx, [] => (fx, [])
  | c, fx, row :: rest =>
    let fr := fxChannel E st nOutputs c fx row
    let rr := fxChannels E st nOutputs (c + 1) fr.1 rest
    (rr.1, fr.2 :: rr.2)

/-- `CelestialSynthDSP::ProcessBlock`: clear outputs, evaluate the LFOs
    and the modulation matrix, run the voice loop, then the post-mix
    double loop.  Returns the new state and the output buffer
    (`nOutputs` rows of `nFrames` samples). -/
def ProcessBlock (E : Ext) (st : CelestialSynthDSP) (nOutputs nFrames : ℕ) :
    CelestialSynthDSP × List (List ℚ) :=
  let lp1 := st.lfo1.Process E (E.rand 0)
  let lp2 := st.lfo2.Process E (E.rand 1)
  let srcVal := modSourceValue lp1.2 lp2.2 st.modWheelValue
  let acc := computeModAccums srcVal st.modSlots
  let vp := processVoices E st acc nFrames (activeVoiceBound st) st.voices
  let buf0 := List.replicate nOutputs vp.2
  let fx0 : FxState :=
    { motionPhase := st.motionPhase, delayBufferL := st.delayBufferL,
      delayBufferR := st.delayBufferR, delayWritePos := st.delayWritePos,
      reverbL := st.reverbL, reverbR := st.reverbR }
  let fr := fxChannels E st nOutputs 0 fx0 buf0
  ({ st with voices := vp.1, lfo1 := lp1.1, lfo2 := lp2.1,
             motionPhase := fr.1.motionPhase,
             delayBufferL := fr.1.delayBufferL, delayBufferR := fr.1.delayBufferR,
             delayWritePos := fr.1.delayWritePos,
             reverbL := fr.1.reverbL, reverbR := fr.1.reverbR },
   fr.2)

end Celestial

namespace Celestial

/-- Every chromatic degree is one of the 5 scale degrees. -/
lemma chromaticDegree_lt (n : ℕ) : chromaticDegree n < 5 := by
  have h : ∀ i : Fin 12, mChromaticToScale i < 5 := by decide
  exact h _

end Celestial

namespace Celestial

/-- C1: For every MIDI note number and every base frequency,
`GetFrequencyForMidiNote(noteNumber, baseFreq)` returns
`baseFreq × ratio × 2^octave`, where `octave = noteNumber/12` (integer
division), `degree = chromaticToScale[noteNumber mod 12]`,
`scaleIndex = octave×5 + degree`, and
`ratio = scaleRatios[currentScale][scaleIndex mod 5]`. -/
theorem C1_frequency_formula (scale : Fin 9) (n : ℕ) (b : ℚ) :
    GetFrequencyForMidiNote scale n b = specFrequencyForNote scale n b := by
  have hd : chromaticDegree n < 5 := chromaticDegree_lt n
  have h2 : (n / 12 * 5 + chromaticDegree n) / 5 = n / 12 := by omega
  unfold GetFrequencyForMidiNote GetScaleNote MapMidiNoteToScaleIndex specFrequencyForNote
  rw [h2]

/-- C2 (counterexample): at scale 0 (Japanese Yo), `n = 0`,
`baseFreq = 1`, notes 0 and 60 map to the same scale degree, yet
`GetFrequencyForMidiNote(60) = 32` is nowhere near
`2 × GetFrequencyForMidiNote(0) = 2` (60 semitones are 5 octaves, so the
ratio is `2^5 = 32`, not 2). -/
theorem C2_counterexample :
    chromaticDegree (0 + 60) = chromaticDegree 0 ∧
    GetFrequencyForMidiNote 0 (0 + 60) 1 = 32 ∧
    2 * GetFrequencyForMidiNote 0 0 1 = 2 ∧
    ¬ |GetFrequencyForMidiNote 0 (0 + 60) 1 - 2 * GetFrequencyForMidiNote 0 0 1| < 1 := by
  refine ⟨by decide, ?_, ?_, ?_⟩ <;>
    norm_num [GetFrequencyForMidiNote, GetScaleNote, MapMidiNoteToScaleIndex,
      chromaticDegree, mChromaticToScale, mScaleRatios]

/-- C2 (amended): for every note number `n` with `n + 60 ≤ 127` and
every of the 9 scale selections, whenever `n` and `n+60` map to the same
scale degree, `GetFrequencyForMidiNote(n+60, baseFreq)` equals
`2^5 = 32` times `GetFrequencyForMidiNote(n, baseFreq)` (five octaves,
since 60 semitones span 5 octaves). -/
theorem C2_octave_relation (scale : Fin 9) (n : ℕ) (b : ℚ) (hn : n + 60 ≤ 127)
    (hdeg : chromaticDegree (n + 60) = chromaticDegree n) :
    GetFrequencyForMidiNote scale (n + 60) b
      = 32 * GetFrequencyForMidiNote scale n b := by
  have hd : chromaticDegree n < 5 := chromaticDegree_lt n
  unfold GetFrequencyForMidiNote GetScaleNote MapMidiNoteToScaleIndex
  rw [hdeg]
  have hdiv : (n + 60) / 12 = n / 12 + 5 := by omega
  rw [hdiv]
  have h1 : ((n / 12 + 5) * 5 + chromaticDegree n) % 5
      = (n / 12 * 5 + chromaticDegree n) % 5 := by omega
  have h2 : ((n / 12 + 5) * 5 + chromaticDegree n) / 5
      = (n / 12 * 5 + chromaticDegree n) / 5 + 5 := by omega
  simp only [h1, h2]
  rw [pow_add]
  norm_num
  ring

theorem C2_octave_relation_witness :
    (0 + 60 ≤ 127 ∧ chromaticDegree (0 + 60) = chromaticDegree 0) ∧
    GetFrequencyForMidiNote 0 (0 + 60) 1 = 32 * GetFrequencyForMidiNote 0 0 1 :=
  ⟨⟨by norm_num, by decide⟩, C2_octave_relation 0 0 1 (by norm_num) (by decide)⟩

end Celestial

namespace Celestial

lemma specAccum_cons (srcVal : ModSource → ℚ) (s : ModulationSlot)
    (rest : List ModulationSlot) (d : ModDestination) :
    specAccum srcVal (s :: rest) d =
      (if isBlockRateSlot s && s.dest == d then srcVal s.source * s.depth else 0)
        + specAccum srcVal rest d := by
  unfold specAccum
  by_cases h : (isBlockRateSlot s && s.dest == d) = true
  · simp [List.filter_cons, h]
  · simp [List.filter_cons, h]

lemma foldl_applySlot (srcVal : ModSource → ℚ) (slots : List ModulationSlot)
    (acc : ModAccums) :
    slots.foldl (applySlot srcVal) acc =
      { modPitch := acc.modPitch + specAccum srcVal slots .kPitch
        modFilterCutoff := acc.modFilterCutoff + specAccum srcVal slots .kFilterCutoff
        modFilterRes := acc.modFilterRes + specAccum srcVal slots .kFilterRes
        modAmplitude := acc.modAmplitude + specAccum srcVal slots .kAmplitude
        modPan := acc.modPan + specAccum srcVal slots .kPan } := by
  induction slots generalizing acc with
  | nil => simp [specAccum]
  | cons s rest ih =>
    rw [List.foldl_cons, ih]
    obtain ⟨src, dest, depth, en⟩ := s
    cases src <;> cases dest <;> cases en <;>
      simp [applySlot, isBlockRateSlot, specAccum_cons, ModAccums.mk.injEq] <;>
      ring

/-- C5: the per-destination modulation accumulators of the block-rate
pass equal the sum of `sourceValue × depth` over exactly the slots that
are enabled, have source and destination different from none, and have
a block-rate source (LFO1, LFO2, mod-wheel); all other slots (disabled,
none-source, none-destination, velocity- or amp-envelope-sourced)
contribute zero, which is what the `specAccum` filtered sum states. -/
theorem C5_mod_accumulators (srcVal : ModSource → ℚ) (slots : List ModulationSlot) :
    computeModAccums srcVal slots =
      { modPitch := specAccum srcVal slots .kPitch
        modFilterCutoff := specAccum srcVal slots .kFilterCutoff
        modFilterRes := specAccum srcVal slots .kFilterRes
        modAmplitude := specAccum srcVal slots .kAmplitude
        modPan := specAccum srcVal slots .kPan } := by
  unfold computeModAccums
  rw [foldl_applySlot]
  simp

end Celestial

namespace Celestial

/-- Unfolding of `Process` in the release stage with a positive release
    length. -/
lemma process_release_pos (e : ADSREnvelope) (hst : e.stage = .kRelease)
    (hRS : 0 < e.releaseSamples) :
    e.Process =
      (if e.releaseStart * (1 - (e.sampleCount : ℚ) / e.releaseSamples) ≤ 1/1000 then
        ({ e with envelopeValue := 0, stage := .kIdle, sampleCount := e.sampleCount + 1 }, 0)
      else
        ({ e with envelopeValue := e.releaseStart * (1 - (e.sampleCount : ℚ) / e.releaseSamples), sampleCount := e.sampleCount + 1 },
          e.releaseStart * (1 - (e.sampleCount : ℚ) / e.releaseSamples))) := by
  simp only [ADSREnvelope.Process, hst, hRS, if_true]

/-- Unfolding of `Process` in the release stage with a non-positive
    release length: immediate transition to idle. -/
lemma process_release_nonpos (e : ADSREnvelope) (hst : e.stage = .kRelease)
    (hRS : ¬ 0 < e.releaseSamples) :
    e.Process =
      ({ e with envelopeValue := 0, stage := .kIdle, sampleCount := e.sampleCount + 1 }, 0) := by
  simp only [ADSREnvelope.Process, hst, hRS, if_false]
  norm_num

/-- Unfolding of `Process` in the idle stage. -/
lemma process_idle (e : ADSREnvelope) (hst : e.stage = .kIdle) :
    e.Process = ({ e with envelopeValue := 0 }, 0) := by
  simp only [ADSREnvelope.Process, hst]

/-- The successive release values differ by exactly
    `releaseStart / releaseSamples`. -/
lemma release_value_diff (rs c RS : ℚ) (hRS : RS ≠ 0) :
    rs * (1 - c / RS) - rs * (1 - (c + 1) / RS) = rs / RS := by
  field_simp
  ring

/-- C4: while the envelope is in the release stage, successive values
returned by `ADSREnvelope::Process` are monotonically non-increasing;
the first value after `Release` is the envelope value recorded at the
moment `Release` was called; once the computed value falls at or below
0.001 the envelope outputs 0 and enters the idle stage (where it stays,
emitting 0), and a voice whose envelope is idle reports `GetBusy = false`. -/
theorem C4_release_monotone :
    (∀ e : ADSREnvelope, 0 < e.releaseSamples → 1/1000 < e.envelopeValue →
      (e.Release.Process).2 = e.envelopeValue) ∧
    (∀ e : ADSREnvelope, e.stage = .kRelease → 0 ≤ e.releaseStart →
      ((e.Process.1).Process).2 ≤ e.Process.2) ∧
    (∀ e : ADSREnvelope, e.stage = .kRelease → e.Process.2 ≤ 1/1000 →
      e.Process.2 = 0 ∧ e.Process.1.stage = .kIdle ∧ e.Process.1.IsActive = false) ∧
    (∀ e : ADSREnvelope, e.stage = .kIdle →
      e.Process.2 = 0 ∧ e.Process.1.stage = .kIdle) ∧
    (∀ v : CelestialVoice, v.envelope.stage = .kIdle → v.GetBusy = false) := by
  refine ⟨?_, ?_, ?_, ?_, ?_⟩
  · -- first value after Release is the recorded envelope value
    intro e hrs hv
    rw [process_release_pos e.Release rfl hrs]
    simp only [ADSREnvelope.Release, Int.cast_zero, zero_div, sub_zero, mul_one]
    rw [if_neg (by linarith)]
  · -- successive values are non-increasing
    intro e hst hrs
    by_cases hRS : 0 < e.releaseSamples
    · rw [process_release_pos e hst hRS]
      split_ifs with h1
      · rw [process_idle _ rfl]
      · have hst2 : ADSREnvelope.stage { e with envelopeValue := e.releaseStart * (1 - (e.sampleCount : ℚ) / e.releaseSamples), sampleCount := e.sampleCount + 1 } = .kRelease := hst
        rw [process_release_pos _ hst2 hRS]
        have hdiff := release_value_diff e.releaseStart (e.sampleCount : ℚ)
          e.releaseSamples (ne_of_gt hRS)
        have hq : 0 ≤ e.releaseStart / e.releaseSamples :=
          div_nonneg hrs hRS.le
        push_cast
        split_ifs with h2
        · push_neg at h1
          linarith
        · push_cast at hdiff
          linarith
    · rw [process_release_nonpos e hst hRS, process_idle _ rfl]
  · -- at or below the threshold: output 0, stage idle, not active
    intro e hst hv
    by_cases hRS : 0 < e.releaseSamples
    · rw [process_release_pos e hst hRS] at hv ⊢
      split_ifs with h1
      · exact ⟨rfl, rfl, rfl⟩
      · rw [if_neg h1] at hv
        exact absurd hv h1
    · rw [process_release_nonpos e hst hRS]
      exact ⟨rfl, rfl, rfl⟩
  · -- idle is absorbing
    intro e hst
    rw [process_idle e hst]
    exact ⟨rfl, hst⟩
  · -- an idle voice is not busy
    intro v hst
    simp [CelestialVoice.GetBusy, ADSREnvelope.IsActive, hst]

/-- Witness for C4: a concrete envelope in the release stage with
`releaseStart = envelopeValue = 1/2` and `releaseSamples = 2`. -/
theorem C4_release_monotone_witness :
    (0 < ({ stage := .kRelease, releaseSamples := 2, envelopeValue := 1/2, releaseStart := 1/2, sampleCount := 0 : ADSREnvelope}).releaseSamples ∧
      (1/1000 : ℚ) < ({ stage := .kRelease, releaseSamples := 2, envelopeValue := 1/2, releaseStart := 1/2, sampleCount := 0 : ADSREnvelope}).envelopeValue) ∧
    (({ stage := .kRelease, releaseSamples := 2, envelopeValue := 1/2, releaseStart := 1/2, sampleCount := 0 : ADSREnvelope}.Release.Process).2 = (1/2 : ℚ)) ∧
    ((({ stage := .kRelease, releaseSamples := 2, envelopeValue := 1/2, releaseStart := 1/2, sampleCount := 0 : ADSREnvelope}.Process.1).Process).2
       ≤ ({ stage := .kRelease, releaseSamples := 2, envelopeValue := 1/2, releaseStart := 1/2, sampleCount := 0 : ADSREnvelope}.Process).2) := by
  refine ⟨⟨by norm_num, by norm_num⟩, ?_, ?_⟩
  · exact C4_release_monotone.1
      { stage := .kRelease, releaseSamples := 2, envelopeValue := 1/2, releaseStart := 1/2, sampleCount := 0 : ADSREnvelope}
      (by norm_num) (by norm_num)
  · exact C4_release_monotone.2.1
      { stage := .kRelease, releaseSamples := 2, envelopeValue := 1/2, releaseStart := 1/2, sampleCount := 0 : ADSREnvelope}
      rfl (by norm_num)

end Celestial

namespace Celestial

lemma renderSamples_length (E : Ext) (n : ℕ) (v : CelestialVoice) :
    (CelestialVoice.renderSamples E n v).2.length = n := by
  induction n generalizing v with
  | zero => rfl
  | succ n ih => simp [CelestialVoice.renderSamples, ih]

lemma processVoices_row_length (E : Ext) (st : CelestialSynthDSP) (acc : ModAccums)
    (nFrames : ℕ) :
    ∀ (bound : ℕ) (vs : List CelestialVoice),
      (processVoices E st acc nFrames bound vs).2.length = nFrames := by
  intro bound vs
  induction vs generalizing bound with
  | nil => cases bound <;> simp [processVoices]
  | cons v rest ih =>
    cases bound with
    | zero => simp [processVoices]
    | succ b =>
      by_cases hb : v.GetBusy
      · simp [processVoices, hb, ih b, renderSamples_length]
      · simp [processVoices, hb, ih b]

lemma fxSample_motionPhase (E : Ext) (st : CelestialSynthDSP) (n c : ℕ)
    (fx : FxState) (x : ℚ) :
    (fxSample E st n c fx x).1.motionPhase = fx.motionPhase + 1/100 * st.motion := rfl

lemma mapAccuml_fxSample_motionPhase (E : Ext) (st : CelestialSynthDSP) (n c : ℕ)
    (row : List ℚ) :
    ∀ fx : FxState,
      (mapAccuml (fxSample E st n c) fx row).1.motionPhase =
        fx.motionPhase + row.length * (1/100 * st.motion) := by
  induction row with
  | nil => intro fx; simp [mapAccuml]
  | cons a as ih =>
    intro fx
    simp only [mapAccuml, ih, fxSample_motionPhase, List.length_cons]
    push_cast
    ring

lemma fxChannel_motionPhase (E : Ext) (st : CelestialSynthDSP) (n c : ℕ)
    (fx : FxState) (row : List ℚ) :
    (fxChannel E st n c fx row).1.motionPhase =
      fx.motionPhase + row.length * (1/100 * st.motion) := by
  simp [fxChannel, mapAccuml_fxSample_motionPhase]

lemma fxChannels_motionPhase (E : Ext) (st : CelestialSynthDSP) (n : ℕ)
    (rows : List (List ℚ)) :
    ∀ (c : ℕ) (fx : FxState),
      (fxChannels E st n c fx rows).1.motionPhase =
        fx.motionPhase + ((rows.map List.length).sum : ℕ) * (1/100 * st.motion) := by
  induction rows with
  | nil => intro c fx; simp [fxChannels]
  | cons r rest ih =>
    intro c fx
    simp only [fxChannels, ih, fxChannel_motionPhase, List.map_cons, List.sum_cons]
    push_cast
    ring

/-- C7: over one `ProcessBlock` call the Motion phase accumulator
advances by exactly `0.01 × motion` for each of the `nOutputs × nFrames`
output samples of the block, carrying its previous value over (it is not
reset between blocks); and the motion stage scales each sample by
`1 + sin(phase) × motion × 0.1` at the freshly advanced phase. -/
theorem C7_motion_phase (E : Ext) (st : CelestialSynthDSP) (nOutputs nFrames : ℕ) :
    (ProcessBlock E st nOutputs nFrames).1.motionPhase =
      st.motionPhase + ((nOutputs * nFrames : ℕ) : ℚ) * (1/100 * st.motion) ∧
    ∀ ph x : ℚ, motionStage E st ph x =
      (ph + 1/100 * st.motion,
        x * (1 + E.sin (ph + 1/100 * st.motion) * st.motion * (1/10))) := by
  constructor
  · show (ProcessBlock E st nOutputs nFrames).1.motionPhase = _
    simp only [ProcessBlock, fxChannels_motionPhase]
    have hlen : ∀ row : List ℚ,
        ((List.replicate nOutputs row).map List.length).sum = nOutputs * row.length := by
      intro row
      induction nOutputs with
      | zero => simp
      | succ k ihk => simp [List.replicate_succ, ihk, Nat.succ_mul, Nat.add_comm]
    rw [hlen]
    rw [processVoices_row_length]
  · intro ph x
    rfl

end Celestial

namespace Celestial

lemma delayStage_bypass {st : CelestialSynthDSP} (h : st.delayMix ≤ 1/100)
    (c : ℕ) (wp : ℤ) (bufL bufR : ℕ → ℚ) (x : ℚ) :
    delayStage st c wp bufL bufR x = (bufL, bufR, x) := by
  unfold delayStage
  rw [if_neg (not_lt.mpr h)]

lemma reverbStage_bypass {st : CelestialSynthDSP} (h : st.reverbMix ≤ 1/100)
    (c : ℕ) (rL rR : SimpleReverb) (x : ℚ) :
    reverbStage st c rL rR x = (rL, rR, x) := by
  unfold reverbStage
  rw [if_neg (not_lt.mpr h)]

lemma fxSample_delayBuf_bypass {st : CelestialSynthDSP} (h : st.delayMix ≤ 1/100)
    (E : Ext) (n c : ℕ) (fx : FxState) (x : ℚ) :
    (fxSample E st n c fx x).1.delayBufferL = fx.delayBufferL ∧
    (fxSample E st n c fx x).1.delayBufferR = fx.delayBufferR := by
  simp [fxSample, delayStage_bypass h]

lemma fxSample_reverb_bypass {st : CelestialSynthDSP} (h : st.reverbMix ≤ 1/100)
    (E : Ext) (n c : ℕ) (fx : FxState) (x : ℚ) :
    (fxSample E st n c fx x).1.reverbL = fx.reverbL ∧
    (fxSample E st n c fx x).1.reverbR = fx.reverbR := by
  simp [fxSample, reverbStage_bypass h]

lemma mapAccuml_fxSample_delayBuf {st : CelestialSynthDSP} (h : st.delayMix ≤ 1/100)
    (E : Ext) (n c : ℕ) (row : List ℚ) :
    ∀ fx : FxState,
      (mapAccuml (fxSample E st n c) fx row).1.delayBufferL = fx.delayBufferL ∧
      (mapAccuml (fxSample E st n c) fx row).1.delayBufferR = fx.delayBufferR := by
  induction row with
  | nil => intro fx; exact ⟨rfl, rfl⟩
  | cons a as ih =>
    intro fx
    have hs := fxSample_delayBuf_bypass h E n c fx a
    simp only [mapAccuml]
    refine ⟨?_, ?_⟩
    · rw [(ih _).1, hs.1]
    · rw [(ih _).2, hs.2]

lemma mapAccuml_fxSample_reverb {st : CelestialSynthDSP} (h : st.reverbMix ≤ 1/100)
    (E : Ext) (n c : ℕ) (row : List ℚ) :
    ∀ fx : FxState,
      (mapAccuml (fxSample E st n c) fx row).1.reverbL = fx.reverbL ∧
      (mapAccuml (fxSample E st n c) fx row).1.reverbR = fx.reverbR := by
  induction row with
  | nil => intro fx; exact ⟨rfl, rfl⟩
  | cons a as ih =>
    intro fx
    have hs := fxSample_reverb_bypass h E n c fx a
    simp only [mapAccuml]
    refine ⟨?_, ?_⟩
    · rw [(ih _).1, hs.1]
    · rw [(ih _).2, hs.2]

lemma fxChannels_delayBuf_bypass {st : CelestialSynthDSP} (h : st.delayMix ≤ 1/100)
    (E : Ext) (n : ℕ) (rows : List (List ℚ)) :
    ∀ (c : ℕ) (fx : FxState),
      (fxChannels E st n c fx rows).1.delayBufferL = fx.delayBufferL ∧
      (fxChannels E st n c fx rows).1.delayBufferR = fx.delayBufferR := by
  induction rows with
  | nil => intro c fx; exact ⟨rfl, rfl⟩
  | cons r rest ih =>
    intro c fx
    have hc := mapAccuml_fxSample_delayBuf h E n c r fx
    simp only [fxChannels]
    refine ⟨?_, ?_⟩
    · rw [(ih _ _).1]
      simpa [fxChannel] using hc.1
    · rw [(ih _ _).2]
      simpa [fxChannel] using hc.2

lemma fxChannels_reverb_bypass {st : CelestialSynthDSP} (h : st.reverbMix ≤ 1/100)
    (E : Ext) (n : ℕ) (rows : List (List ℚ)) :
    ∀ (c : ℕ) (fx : FxState),
      (fxChannels E st n c fx rows).1.reverbL = fx.reverbL ∧
      (fxChannels E st n c fx rows).1.reverbR = fx.reverbR := by
  induction rows with
  | nil => intro c fx; exact ⟨rfl, rfl⟩
  | cons r rest ih =>
    intro c fx
    have hc := mapAccuml_fxSample_reverb h E n c r fx
    simp only [fxChannels]
    refine ⟨?_, ?_⟩
    · rw [(ih _ _).1]
      simpa [fxChannel] using hc.1
    · rw [(ih _ _).2]
      simpa [fxChannel] using hc.2

/-- C10: with `delayMix ≤ 0.01` the delay stage is the identity (no
delay-buffer read or write, sample passes through unchanged) and a whole
`ProcessBlock` call leaves both delay buffers unchanged; with
`reverbMix ≤ 0.01` the reverb stage is the identity (reverb state
untouched, sample unchanged) and a whole `ProcessBlock` call leaves both
per-channel reverb states unchanged. -/
theorem C10_effect_bypass (E : Ext) (st : CelestialSynthDSP) (nOutputs nFrames : ℕ) :
    (st.delayMix ≤ 1/100 →
      (∀ (c : ℕ) (wp : ℤ) (bufL bufR : ℕ → ℚ) (x : ℚ),
        delayStage st c wp bufL bufR x = (bufL, bufR, x)) ∧
      (ProcessBlock E st nOutputs nFrames).1.delayBufferL = st.delayBufferL ∧
      (ProcessBlock E st nOutputs nFrames).1.delayBufferR = st.delayBufferR) ∧
    (st.reverbMix ≤ 1/100 →
      (∀ (c : ℕ) (rL rR : SimpleReverb) (x : ℚ),
        reverbStage st c rL rR x = (rL, rR, x)) ∧
      (ProcessBlock E st nOutputs nFrames).1.reverbL = st.reverbL ∧
      (ProcessBlock E st nOutputs nFrames).1.reverbR = st.reverbR) := by
  constructor
  · intro h
    refine ⟨fun c wp bufL bufR x => delayStage_bypass h c wp bufL bufR x, ?_, ?_⟩
    · show (ProcessBlock E st nOutputs nFrames).1.delayBufferL = st.delayBufferL
      simp only [ProcessBlock]
      exact (fxChannels_delayBuf_bypass h E nOutputs _ 0 _).1
    · show (ProcessBlock E st nOutputs nFrames).1.delayBufferR = st.delayBufferR
      simp only [ProcessBlock]
      exact (fxChannels_delayBuf_bypass h E nOutputs _ 0 _).2
  · intro h
    refine ⟨fun c rL rR x => reverbStage_bypass h c rL rR x, ?_, ?_⟩
    · show (ProcessBlock E st nOutputs nFrames).1.reverbL = st.reverbL
      simp only [ProcessBlock]
      exact (fxChannels_reverb_bypass h E nOutputs _ 0 _).1
    · show (ProcessBlock E st nOutputs nFrames).1.reverbR = st.reverbR
      simp only [ProcessBlock]
      exact (fxChannels_reverb_bypass h E nOutputs _ 0 _).2

/-- Witness for C10: the default-constructed state with both mixes set
to 0 bypasses both effects. -/
theorem C10_effect_bypass_witness :
    (({ delayMix := 0, reverbMix := 0 } : CelestialSynthDSP).delayMix ≤ 1/100 ∧
      ({ delayMix := 0, reverbMix := 0 } : CelestialSynthDSP).reverbMix ≤ 1/100) ∧
    ((ProcessBlock dummyExt ({ delayMix := 0, reverbMix := 0 } : CelestialSynthDSP) 2 1).1.delayBufferL
        = ({ delayMix := 0, reverbMix := 0 } : CelestialSynthDSP).delayBufferL ∧
      (ProcessBlock dummyExt ({ delayMix := 0, reverbMix := 0 } : CelestialSynthDSP) 2 1).1.reverbL
        = ({ delayMix := 0, reverbMix := 0 } : CelestialSynthDSP).reverbL) := by
  refine ⟨⟨by norm_num, by norm_num⟩, ?_, ?_⟩
  · exact ((C10_effect_bypass dummyExt _ 2 1).1 (by norm_num)).2.1
  · exact ((C10_effect_bypass dummyExt _ 2 1).2 (by norm_num)).2.1

end Celestial

namespace Celestial

lemma fxSample_writePos (E : Ext) (st : CelestialSynthDSP) (n c : ℕ)
    (fx : FxState) (x : ℚ) :
    (fxSample E st n c fx x).1.delayWritePos = fx.delayWritePos := rfl

lemma mapAccuml_fxSample_writePos (E : Ext) (st : CelestialSynthDSP) (n c : ℕ)
    (row : List ℚ) :
    ∀ fx : FxState,
      (mapAccuml (fxSample E st n c) fx row).1.delayWritePos = fx.delayWritePos := by
  induction row with
  | nil => intro fx; rfl
  | cons a as ih =>
    intro fx
    simp only [mapAccuml]
    rw [ih, fxSample_writePos]

lemma fxChannel_writePos (E : Ext) (st : CelestialSynthDSP) (n c : ℕ)
    (fx : FxState) (row : List ℚ) :
    (fxChannel E st n c fx row).1.delayWritePos =
      (if fx.delayWritePos + 1 ≥ kMaxDelayBufferSize then 0 else fx.delayWritePos + 1) := by
  simp [fxChannel, mapAccuml_fxSample_writePos]

lemma delayStage_other (st : CelestialSynthDSP) (c : ℕ) (wp : ℤ)
    (bufL bufR : ℕ → ℚ) (x : ℚ) (j : ℕ) (hj : j ≠ wp.toNat) :
    (delayStage st c wp bufL bufR x).1 j = bufL j ∧
    (delayStage st c wp bufL bufR x).2.1 j = bufR j := by
  unfold delayStage
  split_ifs <;> simp [updAt, hj]

lemma fxSample_delayBuf_other (E : Ext) (st : CelestialSynthDSP) (n c : ℕ)
    (fx : FxState) (x : ℚ) (j : ℕ) (hj : j ≠ fx.delayWritePos.toNat) :
    (fxSample E st n c fx x).1.delayBufferL j = fx.delayBufferL j ∧
    (fxSample E st n c fx x).1.delayBufferR j = fx.delayBufferR j := by
  have h := delayStage_other st c fx.delayWritePos fx.delayBufferL fx.delayBufferR
    (purityStage E st (warmthStage E st (spaceStage st c n
      (motionStage E st fx.motionPhase (brillianceStage st x)).2)) * st.gain) j hj
  exact ⟨h.1, h.2⟩

lemma fxChannels_writePos_range (E : Ext) (st : CelestialSynthDSP) (n : ℕ)
    (rows : List (List ℚ)) :
    ∀ (c : ℕ) (fx : FxState), 0 ≤ fx.delayWritePos → fx.delayWritePos < kMaxDelayBufferSize →
      0 ≤ (fxChannels E st n c fx rows).1.delayWritePos ∧
      (fxChannels E st n c fx rows).1.delayWritePos < kMaxDelayBufferSize := by
  induction rows with
  | nil => intro c fx h0 h1; exact ⟨h0, h1⟩
  | cons r rest ih =>
    intro c fx h0 h1
    simp only [fxChannels]
    apply ih
    · rw [fxChannel_writePos]
      split_ifs <;> omega
    · rw [fxChannel_writePos]
      unfold kMaxDelayBufferSize at *
      split_ifs <;> omega

/-- C9: within one `ProcessBlock` call the delay write cursor is not
touched by the per-sample loop (so all `nFrames` frames of a channel
address the same delay-buffer slot: any slot other than the one at the
write cursor is untouched by a sample step), it is incremented exactly
once per output channel (wrapping at `kMaxDelayBufferSize`), and it
always remains inside `[0, kMaxDelayBufferSize)`. -/
theorem C9_write_position (E : Ext) (st : CelestialSynthDSP) (nOutputs nFrames : ℕ) :
    (∀ (n c : ℕ) (fx : FxState) (x : ℚ),
      (fxSample E st n c fx x).1.delayWritePos = fx.delayWritePos) ∧
    (∀ (n c : ℕ) (fx : FxState) (x : ℚ) (j : ℕ), j ≠ fx.delayWritePos.toNat →
      (fxSample E st n c fx x).1.delayBufferL j = fx.delayBufferL j ∧
      (fxSample E st n c fx x).1.delayBufferR j = fx.delayBufferR j) ∧
    (∀ (n c : ℕ) (fx : FxState) (row : List ℚ),
      (fxChannel E st n c fx row).1.delayWritePos =
        (if fx.delayWritePos + 1 ≥ kMaxDelayBufferSize then 0 else fx.delayWritePos + 1)) ∧
    (0 ≤ st.delayWritePos → st.delayWritePos < kMaxDelayBufferSize →
      0 ≤ (ProcessBlock E st nOutputs nFrames).1.delayWritePos ∧
      (ProcessBlock E st nOutputs nFrames).1.delayWritePos < kMaxDelayBufferSize) := by
  refine ⟨fxSample_writePos E st, ?_, fxChannel_writePos E st, ?_⟩
  · intro n c fx x j hj
    exact fxSample_delayBuf_other E st n c fx x j hj
  · intro h0 h1
    show 0 ≤ (ProcessBlock E st nOutputs nFrames).1.delayWritePos ∧ _
    simp only [ProcessBlock]
    exact fxChannels_writePos_range E st nOutputs _ 0 _ h0 h1

/-- Witness for C9 at the default state (write cursor 0). -/
theorem C9_write_position_witness :
    (0 ≤ ({} : CelestialSynthDSP).delayWritePos ∧
      ({} : CelestialSynthDSP).delayWritePos < kMaxDelayBufferSize) ∧
    (0 ≤ (ProcessBlock dummyExt ({} : CelestialSynthDSP) 2 1).1.delayWritePos ∧
      (ProcessBlock dummyExt ({} : CelestialSynthDSP) 2 1).1.delayWritePos
        < kMaxDelayBufferSize) := by
  refine ⟨⟨by norm_num, by norm_num [kMaxDelayBufferSize]⟩, ?_⟩
  exact (C9_write_position dummyExt ({} : CelestialSynthDSP) 2 1).2.2.2
    (by norm_num) (by norm_num [kMaxDelayBufferSize])

end Celestial

namespace Celestial

lemma qtrunc_nonneg {q : ℚ} (h : 0 ≤ q) : 0 ≤ qtrunc q := by
  unfold qtrunc
  rw [if_pos h]
  exact Int.floor_nonneg.mpr h

/-- C6: for a non-negative delay-time setting (the host parameter range
is 0–2000 ms) and a non-negative sample rate, the delay length used by
`ProcessBlock` equals `clamp((int)(delayTimeMs/1000 × sampleRate), 0,
kMaxDelayBufferSize−1)`, and for any write cursor in range both the read
index and the write index into the delay buffers lie within
`[0, kMaxDelayBufferSize)`. -/
theorem C6_delay_index_bounds (st : CelestialSynthDSP) (wp : ℤ)
    (h1 : 0 ≤ st.delayTime) (h2 : 0 ≤ st.sampleRate)
    (h3 : 0 ≤ wp) (h4 : wp < kMaxDelayBufferSize) :
    delaySamplesUsed st =
      max 0 (min (qtrunc (st.delayTime / 1000 * st.sampleRate))
        (kMaxDelayBufferSize - 1)) ∧
    0 ≤ delaySamplesUsed st ∧
    delaySamplesUsed st ≤ kMaxDelayBufferSize - 1 ∧
    0 ≤ delayReadPos st wp ∧ delayReadPos st wp < kMaxDelayBufferSize ∧
    0 ≤ wp ∧ wp < kMaxDelayBufferSize := by
  have hq : 0 ≤ qtrunc (st.delayTime / 1000 * st.sampleRate) :=
    qtrunc_nonneg (mul_nonneg (div_nonneg h1 (by norm_num)) h2)
  have hds0 : 0 ≤ delaySamplesUsed st := by
    unfold delaySamplesUsed kMaxDelayBufferSize
    omega
  have hds1 : delaySamplesUsed st ≤ kMaxDelayBufferSize - 1 := by
    unfold delaySamplesUsed
    omega
  have hclamp : delaySamplesUsed st =
      max 0 (min (qtrunc (st.delayTime / 1000 * st.sampleRate)) (kMaxDelayBufferSize - 1)) := by
    unfold delaySamplesUsed kMaxDelayBufferSize
    omega
  refine ⟨hclamp, hds0, hds1, ?_, ?_, h3, h4⟩
  · unfold delayReadPos
    unfold kMaxDelayBufferSize at *
    dsimp only
    split_ifs <;> omega
  · unfold delayReadPos
    unfold kMaxDelayBufferSize at *
    dsimp only
    split_ifs <;> omega

/-- Witness for C6 at the default state (`delayTime = 250`,
`sampleRate = 44100`, write cursor 0). -/
theorem C6_delay_index_bounds_witness :
    (0 ≤ ({} : CelestialSynthDSP).delayTime ∧ 0 ≤ ({} : CelestialSynthDSP).sampleRate ∧
      0 ≤ (0 : ℤ) ∧ (0 : ℤ) < kMaxDelayBufferSize) ∧
    (0 ≤ delayReadPos ({} : CelestialSynthDSP) 0 ∧
      delayReadPos ({} : CelestialSynthDSP) 0 < kMaxDelayBufferSize) := by
  refine ⟨⟨by norm_num, by norm_num, by norm_num, by norm_num [kMaxDelayBufferSize]⟩, ?_⟩
  have h := C6_delay_index_bounds ({} : CelestialSynthDSP) 0
    (by norm_num) (by norm_num) (by norm_num) (by norm_num [kMaxDelayBufferSize])
  exact ⟨h.2.2.2.1, h.2.2.2.2.1⟩

end Celestial

namespace Celestial

lemma claimFirstFree_beyond (f : CelestialVoice → CelestialVoice) :
    ∀ (bound : ℕ) (vs : List CelestialVoice) (i : ℕ), bound ≤ i →
      (claimFirstFree f bound vs).get? i = vs.get? i := by
  intro bound vs
  induction vs generalizing bound with
  | nil => intro i _; simp [claimFirstFree]
  | cons v rest ih =>
    intro i hle
    cases bound with
    | zero => rfl
    | succ b =>
      cases i with
      | zero => omega
      | succ i =>
        by_cases hb : v.GetBusy
        · simp only [claimFirstFree, hb, if_true, List.get?_cons_succ]
          exact ih b i (by omega)
        · simp only [claimFirstFree, hb, Bool.false_eq_true, if_false,
            List.get?_cons_succ]

lemma claimFirstFree_all_busy (f : CelestialVoice → CelestialVoice) :
    ∀ (bound : ℕ) (vs : List CelestialVoice),
      (∀ i vi, vs.get? i = some vi → i < bound → vi.GetBusy = true) →
      claimFirstFree f bound vs = vs := by
  intro bound vs
  induction vs generalizing bound with
  | nil => intro _; cases bound <;> rfl
  | cons v rest ih =>
    intro hall
    cases bound with
    | zero => rfl
    | succ b =>
      have hv : v.GetBusy = true := hall 0 v rfl (by omega)
      simp only [claimFirstFree, hv, if_true]
      rw [ih b]
      intro i vi h hi
      exact hall (i + 1) vi (by simpa using h) (by omega)

lemma claimFirstFree_first_free (f : CelestialVoice → CelestialVoice) :
    ∀ (bound : ℕ) (vs : List CelestialVoice) (j : ℕ) (vj : CelestialVoice),
      vs.get? j = some vj → j < bound → vj.GetBusy = false →
      (∀ i vi, vs.get? i = some vi → i < j → vi.GetBusy = true) →
      claimFirstFree f bound vs = vs.set j (f vj) := by
  intro bound vs
  induction vs generalizing bound with
  | nil => intro j vj h; simp at h
  | cons v rest ih =>
    intro j vj hget hjb hfree hprev
    cases bound with
    | zero => omega
    | succ b =>
      cases j with
      | zero =>
        have hv : v = vj := by simpa using hget
        subst hv
        simp only [claimFirstFree, hfree, Bool.false_eq_true, if_false, List.set]
      | succ j =>
        have hv : v.GetBusy = true := hprev 0 v rfl (by omega)
        simp only [claimFirstFree, hv, if_true, List.set]
        congr 1
        exact ih b j vj (by simpa using hget) (by omega) hfree
          (fun i vi h hi => hprev (i + 1) vi (by simpa using h) (by omega))

lemma processVoices_beyond (E : Ext) (st : CelestialSynthDSP) (acc : ModAccums)
    (nFrames : ℕ) :
    ∀ (bound : ℕ) (vs : List CelestialVoice) (i : ℕ), bound ≤ i →
      ((processVoices E st acc nFrames bound vs).1).get? i = vs.get? i := by
  intro bound vs
  induction vs generalizing bound with
  | nil => intro i _; simp [processVoices]
  | cons v rest ih =>
    intro i hle
    cases bound with
    | zero => rfl
    | succ b =>
      cases i with
      | zero => omega
      | succ i =>
        by_cases hb : v.GetBusy
        · simp only [processVoices, hb, if_true, List.get?_cons_succ]
          exact ih b i (by omega)
        · simp only [processVoices, hb, Bool.false_eq_true, if_false,
            List.get?_cons_succ]
          exact ih b i (by omega)

/-- C3: a note-on with non-zero velocity scans voices in index order up
to the active voice bound and claims exactly the first non-busy voice,
triggering it via `triggerVoiceForNote`; if every scanned voice is busy
the event is dropped and the state is unchanged (no stealing); voices at
indices ≥ the active voice bound are never touched by the note-on scan,
and are never processed by `ProcessBlock`'s voice loop. -/
theorem C3_voice_allocation (E : Ext) (st : CelestialSynthDSP) (note velocity : ℤ)
    (hvel : velocity ≠ 0) (nOutputs nFrames : ℕ) :
    ((∀ i vi, st.voices.get? i = some vi → i < activeVoiceBound st →
        vi.GetBusy = true) →
      NoteOn E st note velocity = st) ∧
    (∀ j vj, st.voices.get? j = some vj → j < activeVoiceBound st →
      vj.GetBusy = false →
      (∀ i vi, st.voices.get? i = some vi → i < j → vi.GetBusy = true) →
      (NoteOn E st note velocity).voices =
        st.voices.set j (triggerVoiceForNote E st note velocity vj)) ∧
    (∀ i, activeVoiceBound st ≤ i →
      ((NoteOn E st note velocity).voices).get? i = st.voices.get? i) ∧
    (∀ i, activeVoiceBound st ≤ i →
      ((ProcessBlock E st nOutputs nFrames).1.voices).get? i = st.voices.get? i) := by
  refine ⟨?_, ?_, ?_, ?_⟩
  · intro hall
    unfold NoteOn
    rw [if_neg hvel, claimFirstFree_all_busy _ _ _ hall]
  · intro j vj hget hjb hfree hprev
    unfold NoteOn
    rw [if_neg hvel]
    exact claimFirstFree_first_free _ _ _ j vj hget hjb hfree hprev
  · intro i hi
    unfold NoteOn
    rw [if_neg hvel]
    exact claimFirstFree_beyond _ _ _ i hi
  · intro i hi
    show ((ProcessBlock E st nOutputs nFrames).1.voices).get? i = st.voices.get? i
    simp only [ProcessBlock]
    exact processVoices_beyond E st _ nFrames _ _ i hi

end Celestial

namespace Celestial

/-- Witness for C3: a pool of two voices, the first busy (attack stage),
the second idle; a note-on with velocity 1 claims voice 1. -/
theorem C3_voice_allocation_witness :
    ((1 : ℤ) ≠ 0 ∧
      ({ voices := [{ envelope := { stage := .kAttack } }, {}], voiceCount := 8 } : CelestialSynthDSP).voices.get? 1 = some ({} : CelestialVoice) ∧
      (1 : ℕ) < activeVoiceBound ({ voices := [{ envelope := { stage := .kAttack } }, {}], voiceCount := 8 } : CelestialSynthDSP) ∧
      ({} : CelestialVoice).GetBusy = false ∧
      ({ envelope := { stage := .kAttack } } : CelestialVoice).GetBusy = true) ∧
    (NoteOn dummyExt ({ voices := [{ envelope := { stage := .kAttack } }, {}], voiceCount := 8 } : CelestialSynthDSP) 60 1).voices =
      ({ voices := [{ envelope := { stage := .kAttack } }, {}], voiceCount := 8 } : CelestialSynthDSP).voices.set 1
        (triggerVoiceForNote dummyExt ({ voices := [{ envelope := { stage := .kAttack } }, {}], voiceCount := 8 } : CelestialSynthDSP) 60 1 ({} : CelestialVoice)) := by
  refine ⟨⟨by decide, rfl, ?_, by decide, by decide⟩, ?_⟩
  · show (1 : ℕ) < activeVoiceBound _
    norm_num [activeVoiceBound, kMaxVoices]
  · refine (C3_voice_allocation dummyExt _ 60 1 (by decide) 0 0).2.1 1 ({} : CelestialVoice)
      rfl ?_ (by decide) ?_
    · show (1 : ℕ) < activeVoiceBound _
      norm_num [activeVoiceBound, kMaxVoices]
    · intro i vi h hi
      have h0 : i = 0 := by omega
      subst h0
      simp only [List.get?_cons_zero, Option.some.injEq] at h
      subst h
      decide

end Celestial

namespace Celestial

lemma polyBLEP_lt {t dt : ℚ} (h0 : 0 ≤ t) (hdt : 0 < dt) (hlt : t < dt) :
    -1 ≤ PolyBLEP t dt ∧ PolyBLEP t dt ≤ 0 := by
  unfold PolyBLEP
  rw [if_pos hlt]
  have hu0 : 0 ≤ t / dt := div_nonneg h0 hdt.le
  have hu1 : t / dt ≤ 1 := (div_le_one hdt).mpr hlt.le
  dsimp only
  constructor <;> nlinarith [sq_nonneg (1 - t / dt), sq_nonneg (t / dt)]

lemma polyBLEP_mid {t dt : ℚ} (h1 : ¬ t < dt) (h2 : ¬ t > 1 - dt) :
    PolyBLEP t dt = 0 := by
  unfold PolyBLEP
  rw [if_neg h1, if_neg h2]

lemma polyBLEP_gt {t dt : ℚ} (hdt : 0 < dt) (hge : ¬ t < dt) (hgt : t > 1 - dt)
    (h1 : t < 1) :
    0 ≤ PolyBLEP t dt ∧ PolyBLEP t dt ≤ 1 := by
  unfold PolyBLEP
  rw [if_neg hge, if_pos hgt]
  have hun : (t - 1) / dt < 0 := div_neg_of_neg_of_pos (by linarith) hdt
  have hug : -1 < (t - 1) / dt := by
    rw [lt_div_iff hdt]
    linarith
  dsimp only
  constructor <;> nlinarith [sq_nonneg ((t - 1) / dt + 1)]

lemma polyBLEP_bounds_notlt {t dt : ℚ} (hdt : 0 < dt) (hge : dt ≤ t) (h1 : t < 1) :
    0 ≤ PolyBLEP t dt ∧ PolyBLEP t dt ≤ 1 := by
  rcases lt_or_le (1 - dt) t with hgt | hle
  · exact polyBLEP_gt hdt (not_lt.mpr hge) hgt h1
  · rw [polyBLEP_mid (not_lt.mpr hge) (not_lt.mpr hle)]
    norm_num

lemma polyBLEP_bounds_low {t dt : ℚ} (h0 : 0 ≤ t) (hdt : 0 < dt)
    (hlt2 : t ≤ 1 - dt) :
    -1 ≤ PolyBLEP t dt ∧ PolyBLEP t dt ≤ 0 := by
  rcases lt_or_le t dt with hlt | hge
  · exact polyBLEP_lt h0 hdt hlt
  · rw [polyBLEP_mid (not_lt.mpr hge) (not_lt.mpr hlt2)]
    norm_num

lemma saw_bound {t dt : ℚ} (h0 : 0 ≤ t) (h1 : t < 1) (hdt : 0 < dt)
    (hdt2 : dt < 1/2) :
    |2 * (t - 1/2) - PolyBLEP t dt| ≤ 3/2 := by
  rcases lt_or_le t dt with hc | hc
  · have hb := polyBLEP_lt h0 hdt hc
    rw [abs_le]
    constructor <;> nlinarith
  · rcases le_or_lt t (1 - dt) with hc2 | hc2
    · rw [polyBLEP_mid (not_lt.mpr hc) (not_lt.mpr hc2)]
      rw [abs_le]
      constructor <;> nlinarith
    · have hb := polyBLEP_gt hdt (not_lt.mpr hc) hc2 h1
      rw [abs_le]
      constructor <;> nlinarith

lemma qfmod_half {t : ℚ} (h0 : 0 ≤ t) (h1 : t < 1) :
    qfmod (t + 1/2) 1 = if t < 1/2 then t + 1/2 else t - 1/2 := by
  unfold qfmod qtrunc
  rw [div_one, if_pos (by linarith : (0:ℚ) ≤ t + 1/2)]
  rcases lt_or_le t (1/2) with h | h
  · rw [if_pos h]
    have hf : ⌊t + 1/2⌋ = 0 := Int.floor_eq_zero_iff.mpr ⟨by linarith, by linarith⟩
    rw [hf]
    push_cast
    ring
  · rw [if_neg (not_lt.mpr h)]
    have hf : ⌊t + (1:ℚ)/2⌋ = 1 := by
      rw [Int.floor_eq_iff]
      constructor <;> push_cast <;> linarith
    rw [hf]
    push_cast
    ring

lemma square_bound {t dt : ℚ} (h0 : 0 ≤ t) (h1 : t < 1) (hdt : 0 < dt)
    (hdt2 : dt < 1/2) :
    |(if t < 1/2 then (1:ℚ) else -1) + PolyBLEP t dt
      - PolyBLEP (qfmod (t + 1/2) 1) dt| ≤ 3/2 := by
  rw [qfmod_half h0 h1]
  rcases lt_or_le t (1/2) with h | h
  · rw [if_pos h, if_pos h]
    have hB1 := polyBLEP_bounds_low h0 hdt (by linarith)
    have hB2 := polyBLEP_bounds_notlt (t := t + 1/2) hdt (by linarith) (by linarith)
    rw [abs_le]
    constructor <;> linarith [hB1.1, hB1.2, hB2.1, hB2.2]
  · rw [if_neg (not_lt.mpr h), if_neg (not_lt.mpr h)]
    have hB1 := polyBLEP_bounds_notlt (t := t) hdt (by linarith) h1
    have hB2 := polyBLEP_bounds_low (t := t - 1/2) (by linarith) hdt (by linarith)
    rw [abs_le]
    constructor <;> linarith [hB1.1, hB1.2, hB2.1, hB2.2]

/-- C8: for any phase in `[0, 1)` and any phase increment in
`(0, 0.5)` (an audio-rate frequency below Nyquist), the
PolyBLEP-corrected sawtooth and square outputs of `GenerateWaveform`
lie within `[-1.5, 1.5]`. -/
theorem C8_waveform_bounded (E : Ext) (v : CelestialVoice)
    (h0 : 0 ≤ v.phase) (h1 : v.phase < 1) (hdt : 0 < v.phaseIncrement)
    (hdt2 : v.phaseIncrement < 1/2) :
    (v.waveform = .kSaw → |(v.GenerateWaveform E).2| ≤ 3/2) ∧
    (v.waveform = .kSquare → |(v.GenerateWaveform E).2| ≤ 3/2) := by
  constructor
  · intro hw
    have hout : (v.GenerateWaveform E).2 =
        2 * (v.phase - 1/2) - PolyBLEP v.phase v.phaseIncrement := by
      simp only [CelestialVoice.GenerateWaveform, hw]
    rw [hout]
    exact saw_bound h0 h1 hdt hdt2
  · intro hw
    have hout : (v.GenerateWaveform E).2 =
        (if v.phase < 1/2 then (1:ℚ) else -1)
          + PolyBLEP v.phase v.phaseIncrement
          - PolyBLEP (qfmod (v.phase + 1/2) 1) v.phaseIncrement := by
      simp only [CelestialVoice.GenerateWaveform, hw]
    rw [hout]
    exact square_bound h0 h1 hdt hdt2

/-- Witness for C8: phase 0, increment 1/4, saw then square. -/
theorem C8_waveform_bounded_witness :
    ((0:ℚ) ≤ 0 ∧ (0:ℚ) < 1 ∧ (0:ℚ) < 1/4 ∧ (1/4:ℚ) < 1/2) ∧
    |(CelestialVoice.GenerateWaveform dummyExt
        { phase := 0, phaseIncrement := 1/4, waveform := .kSaw }).2| ≤ 3/2 ∧
    |(CelestialVoice.GenerateWaveform dummyExt
        { phase := 0, phaseIncrement := 1/4, waveform := .kSquare }).2| ≤ 3/2 := by
  refine ⟨⟨le_refl 0, by norm_num, by norm_num, by norm_num⟩, ?_, ?_⟩
  · exact (C8_waveform_bounded dummyExt
      { phase := 0, phaseIncrement := 1/4, waveform := .kSaw }
      (le_refl 0) (by norm_num) (by norm_num) (by norm_num)).1 rfl
  · exact (C8_waveform_bounded dummyExt
      { phase := 0, phaseIncrement := 1/4, waveform := .kSquare }
      (le_refl 0) (by norm_num) (by norm_num) (by norm_num)).2 rfl

end Celestial
